import Mathlib

/-!
Shallow embedding of the simple-todo-manager front end.

Source files embedded:
* `src/todo_frontend/src/api/client.js` — the HTTP wrapper (`request`,
  `parseErrorBody`) and the five API operations.
* `src/todo_frontend/src/App.js` — the UI state controller: state
  `todos / filter / newTitle / loading / mutating / error`, the derived
  views `filteredTodos` and `counts`, and the handlers `refresh`,
  `handleAdd`, `handleToggle`, `handleDelete`, `handleUpdateTitle`.
* `src/unnamed/part_000` (the `TodoItem` component) — `commitEdit`.

Modelling decisions:
* JavaScript objects `{id, title, completed}` become the structure `Todo`;
  ids are `Nat` (the backend assigns them; the client only compares with
  `===`).
* Each `async` handler is embedded as a pure function of the controller
  state and of the outcome of its single network call
  (`Except String α`: `.error msg` models the awaited promise rejecting
  with an `Error` whose `message` is `msg` — `client.js` only ever throws
  `new Error(msg)`).  The handler result records the final state, the
  request that was issued (`none` when the handler returned before the
  network call), and whether the handler itself rethrew.
* JSON values are embedded as the inductive `Json`; a response body that
  is not JSON (so that `response.json()` rejects) is `none`.
-/

/-- A todo record `{id, title, completed}` as held by the client. -/
structure Todo where
  id : Nat
  title : String
  completed : Bool
deriving DecidableEq, Repr

/-- The filter selection: one of `"all" | "active" | "completed"`. -/
inductive TodoFilter where
  | all
  | active
  | completed
deriving DecidableEq, Repr

/-- The controller state of `App`: the `useState` cells of `App.js`. -/
structure AppState where
  todos : List Todo
  filter : TodoFilter
  newTitle : String
  loading : Bool
  mutating : Bool
  error : String
deriving DecidableEq, Repr

/-- The initial state of `App` (`useState([])`, `useState("all")`,
`useState("")`, `useState(true)`, `useState(false)`, `useState("")`). -/
def initState : AppState :=
  { todos := [], filter := .all, newTitle := "", loading := true,
    mutating := false, error := "" }

/-! ### JSON values and the error contract of `api/client.js` -/

/-- A parsed JSON value, as produced by `response.json()`. JSON numbers are
modelled as integers: the backend payloads the client consumes carry only
ids and counts, and no arithmetic is performed on them. -/
inductive Json where
  | null
  | bool (b : Bool)
  | num (n : Int)
  | str (s : String)
  | arr (elems : List Json)
  | obj (fields : List (String × Json))

/-- Drop leading whitespace characters from a character list. -/
def dropWhileWs : List Char → List Char
  | [] => []
  | c :: cs => if c.isWhitespace then dropWhileWs cs else c :: cs

/-- JavaScript `String.prototype.trim`, embedded structurally over the
underlying character list (whitespace here is space, tab, CR, LF — the
characters the drafts in this repository can contain). -/
def jsTrim (s : String) : String :=
  ⟨(dropWhileWs (dropWhileWs s.data).reverse).reverse⟩

/-- JSON escaping of one character: `"` and `\` are escaped, newline
becomes `\n` (other control-character escapes are not exercised by the
payloads modelled here). -/
def escChar (c : Char) : List Char :=
  if c = '"' then ['\\', '"']
  else if c = '\\' then ['\\', '\\']
  else if c = '\n' then ['\\', 'n']
  else [c]

/-- Escape a string for JSON output. -/
def jsonEscape (s : String) : String :=
  ⟨s.data.foldr (fun c acc => escChar c ++ acc) []⟩

/-- A JSON string literal: `jsonEscape` between double quotes. -/
def jsonQuote (s : String) : String :=
  "\"" ++ jsonEscape s ++ "\""

mutual

/-- `JSON.stringify` on parsed JSON values. -/
def stringify : Json → String
  | .null => "null"
  | .bool true => "true"
  | .bool false => "false"
  | .num n => toString n
  | .str s => jsonQuote s
  | .arr xs => "[" ++ stringifyArr xs ++ "]"
  | .obj fs => "\x7b" ++ stringifyObj fs ++ "\x7d"

/-- Comma-separated serialization of the elements of a JSON array. -/
def stringifyArr : List Json → String
  | [] => ""
  | [x] => stringify x
  | x :: y :: xs => stringify x ++ "," ++ stringifyArr (y :: xs)

/-- Comma-separated serialization of the fields of a JSON object. -/
def stringifyObj : List (String × Json) → String
  | [] => ""
  | [p] => jsonQuote p.1 ++ ":" ++ stringify p.2
  | p :: q :: fs => jsonQuote p.1 ++ ":" ++ stringify p.2 ++ "," ++ stringifyObj (q :: fs)

end

/-- `data && typeof data === "object"`: true exactly for JSON objects and
arrays (JavaScript `typeof null === "object"`, but `null` is falsy and is
excluded by the `data &&` guard). -/
def isJsObject : Json → Bool
  | .obj _ => true
  | .arr _ => true
  | _ => false

/-- The property access `data.detail` on a parsed JSON value: defined for
objects (where `JSON.parse` keeps the last of duplicate keys, hence the
reverse-first lookup), `undefined` (`none`) otherwise. -/
def detailField : Json → Option Json
  | .obj fields => (fields.reverse.find? (fun p => p.1 = "detail")).map Prod.snd
  | _ => none

/-- JavaScript `String(data)` on the values that can reach it in
`parseErrorBody` — the object/array branch is taken before `String` is
applied, so only primitives are reachable; the object and array clauses
are present only for totality. -/
def jsToString : Json → String
  | .null => "null"
  | .bool true => "true"
  | .bool false => "false"
  | .num n => toString n
  | .str s => s
  | .arr _ => ""
  | .obj _ => "[object Object]"

/-- An HTTP response as seen by `request`: `ok`/`status`/`statusText` from
the transport, and `body` the parsed JSON body (`none` when
`response.json()` rejects, i.e. the body is not JSON). -/
structure HttpResponse where
  ok : Bool
  status : Nat
  statusText : String
  body : Option Json

/-- `parseErrorBody` of `api/client.js`:
strings in a `detail` field pass through; other object-like bodies are
`JSON.stringify`-ed; primitive JSON bodies go through `String(...)`;
a non-JSON body falls back to `statusText || "Request failed"`. -/
def parseErrorBody (res : HttpResponse) : String :=
  match res.body with
  | none => if res.statusText = "" then "Request failed" else res.statusText
  | some data =>
    if isJsObject data then
      match detailField data with
      | some (.str s) => s
      | _ => stringify data
    else jsToString data

/-- Modelled from the spec's words, for refinement comparison only: the
claimed error-message priority order — the JSON body's `detail` field if
present (a message is a string, so the string case of `detail`), else the
serialized JSON body, else the transport's status text, else the fixed
string `"Request failed"`. -/
def specClaimMessage (res : HttpResponse) : String :=
  match res.body with
  | none => if res.statusText = "" then "Request failed" else res.statusText
  | some data =>
    match detailField data with
    | some (.str s) => s
    | _ => stringify data

/-- The request wrapper of `api/client.js`: a non-`ok` response throws an
`Error` carrying `parseErrorBody`; a 204 yields `null` (`none`); any other
success yields the JSON body. -/
def request (res : HttpResponse) : Except String (Option Json) :=
  if res.ok = false then .error (parseErrorBody res)
  else if res.status = 204 then .ok none
  else .ok res.body

/-! ### The five API operations, at the level the controller sees them -/

/-- The HTTP request issued by an API-client operation.  `create` posts
`{title, completed: false}` (the `completed: false` is fixed by
`createTodo`); `update` puts `{title, completed}`; `toggle` patches with
no body. -/
inductive ApiRequest where
  | list
  | create (title : String)
  | update (id : Nat) (title : String) (completed : Bool)
  | delete (id : Nat)
  | toggle (id : Nat)
deriving DecidableEq, Repr

/-- The shape of a `listTodos` result `{items, total}` as consumed by
`refresh`: `data.items` may be absent (`none`), in which case `refresh`
falls back to `[]`; `data.total` is never read by the controller. -/
structure ListResponse where
  items : Option (List Todo)
  total : Option Nat
deriving DecidableEq, Repr

/-! ### Derived views of `App.js` -/

/-- `filteredTodos` (`App.js` lines 26–30). -/
def filteredTodos (s : AppState) : List Todo :=
  if s.filter = TodoFilter.active then s.todos.filter (fun t => !t.completed)
  else if s.filter = TodoFilter.completed then s.todos.filter (fun t => t.completed)
  else s.todos

/-- The record `{total, active, completed}` returned by the `counts` memo. -/
structure Counts where
  total : Nat
  active : Nat
  completed : Nat
deriving DecidableEq, Repr

/-- `counts` (`App.js` lines 32–37). -/
def counts (s : AppState) : Counts :=
  let total := s.todos.length
  let completed := (s.todos.filter (fun t => t.completed)).length
  { total := total, active := total - completed, completed := completed }

/-- `setFilter` as wired to the filter buttons: replaces the filter
selection and touches nothing else. -/
def setFilter (s : AppState) (f : TodoFilter) : AppState :=
  { s with filter := f }

/-! ### The controller handlers -/

/-- The result of running a handler to completion: the final controller
state, the network request it issued (`none` when it returned before the
call), and whether the handler rethrew the failure to its caller. -/
structure MutResult where
  state : AppState
  request : Option ApiRequest
  rejected : Bool
deriving DecidableEq, Repr

/-- The optimistic mutation of `handleToggle`:
`prev.map((t) => (t.id === id ? { ...t, completed: !t.completed } : t))`. -/
def toggleOptimistic (todos : List Todo) (id : Nat) : List Todo :=
  todos.map (fun t => if t.id = id then { t with completed := !t.completed } else t)

/-- The optimistic mutation of `handleUpdateTitle`:
`prev.map((t) => (t.id === id ? { ...t, title } : t))`. -/
def retitleOptimistic (todos : List Todo) (id : Nat) (title : String) : List Todo :=
  todos.map (fun t => if t.id = id then { t with title := title } else t)

/-- The reconciliation map shared by toggle and update-title success:
`prev.map((t) => (t.id === id ? updated : t))`. -/
def replaceById (todos : List Todo) (id : Nat) (upd : Todo) : List Todo :=
  todos.map (fun t => if t.id = id then upd else t)

/-- The optimistic mutation of `handleDelete`:
`prev.filter((t) => t.id !== id)`. -/
def removeById (todos : List Todo) (id : Nat) : List Todo :=
  todos.filter (fun t => t.id != id)

/-- `refresh` (`App.js` lines 39–50), up to its `await listTodos()`:
clears the error, sets `loading`. -/
def refreshStart (s : AppState) : AppState :=
  { s with error := "", loading := true }

/-- `refresh` after its network call returns: on success `todos` becomes
`data.items || []`; on failure the error message is stored; `finally`
clears `loading`. -/
def refreshFinish (s : AppState) (outcome : Except String ListResponse) : AppState :=
  match outcome with
  | .ok data => { s with todos := data.items.getD [], loading := false }
  | .error e => { s with error := e, loading := false }

/-- `refresh` run to completion against the given network outcome. -/
def refresh (s : AppState) (outcome : Except String ListResponse) : AppState :=
  refreshFinish (refreshStart s) outcome

/-- `handleAdd` (`App.js` lines 56–73) run to completion.  The trimmed
draft title is required non-empty before anything happens; on success the
created todo is prepended and the draft cleared; on failure only the error
message changes. -/
def handleAdd (s : AppState) (outcome : Except String Todo) : MutResult :=
  let title := jsTrim s.newTitle
  if title = "" then { state := s, request := none, rejected := false }
  else
    let s1 := { s with error := "", mutating := true }
    match outcome with
    | .ok created =>
      { state := { s1 with todos := created :: s1.todos, newTitle := "", mutating := false },
        request := some (.create title), rejected := false }
    | .error e =>
      { state := { s1 with error := e, mutating := false },
        request := some (.create title), rejected := false }

/-- `handleToggle` (`App.js` lines 75–93) run to completion.  The snapshot
`prevTodos` is captured before the optimistic flip; failure restores it. -/
def handleToggle (s : AppState) (id : Nat) (outcome : Except String Todo) : MutResult :=
  let prevTodos := s.todos
  let s1 := { s with error := "", todos := toggleOptimistic s.todos id, mutating := true }
  match outcome with
  | .ok updated =>
    { state := { s1 with todos := replaceById s1.todos id updated, mutating := false },
      request := some (.toggle id), rejected := false }
  | .error e =>
    { state := { s1 with todos := prevTodos, error := e, mutating := false },
      request := some (.toggle id), rejected := false }

/-- `handleDelete` (`App.js` lines 95–109) run to completion.  The target
is removed optimistically; failure restores the snapshot; success needs no
reconciliation. -/
def handleDelete (s : AppState) (id : Nat) (outcome : Except String Unit) : MutResult :=
  let prevTodos := s.todos
  let s1 := { s with error := "", todos := removeById s.todos id, mutating := true }
  match outcome with
  | .ok _ =>
    { state := { s1 with mutating := false },
      request := some (.delete id), rejected := false }
  | .error e =>
    { state := { s1 with todos := prevTodos, error := e, mutating := false },
      request := some (.delete id), rejected := false }

/-- `handleUpdateTitle` (`App.js` lines 111–134) run to completion.  Note
the `setError("")` precedes the existence check, so the absent-id early
return has already cleared the error.  Failure restores the snapshot,
stores the error, and rethrows (`throw err`). -/
def handleUpdateTitle (s : AppState) (id : Nat) (title : String)
    (outcome : Except String Todo) : MutResult :=
  let s0 := { s with error := "" }
  match s0.todos.find? (fun t => t.id = id) with
  | none => { state := s0, request := none, rejected := false }
  | some existing =>
    let prevTodos := s0.todos
    let s1 := { s0 with todos := retitleOptimistic s0.todos id title, mutating := true }
    match outcome with
    | .ok updated =>
      { state := { s1 with todos := replaceById s1.todos id updated, mutating := false },
        request := some (.update id title existing.completed), rejected := false }
    | .error e =>
      { state := { s1 with todos := prevTodos, error := e, mutating := false },
        request := some (.update id title existing.completed), rejected := true }

/-- `commitEdit` of the `TodoItem` component (`src/unnamed/part_000`
lines 31–40): given the row's todo and the edit draft, returns the
`onUpdateTitle(todo.id, nextTitle)` invocation it makes, or `none` when it
returns without calling (blank draft, or draft equal to the current
title). -/
def commitEdit (todo : Todo) (draftTitle : String) : Option (Nat × String) :=
  let nextTitle := jsTrim draftTitle
  if nextTitle = "" then none
  else if nextTitle = todo.title then none
  else some (todo.id, nextTitle)

/-! ### Successful-operation traces (for the duplicate-id invariant) -/

/-- One user-level operation together with the successful response the
backend returned for it (a filter change needs no network call). -/
inductive Event where
  | refreshE (resp : ListResponse)
  | addE (draft : String) (created : Todo)
  | toggleE (id : Nat) (updated : Todo)
  | deleteE (id : Nat)
  | updateE (id : Nat) (title : String) (updated : Todo)
  | setFilterE (f : TodoFilter)
deriving Repr

/-- Run one event against the controller, its network call succeeding.
`addE` first types `draft` into the new-title input, as the form does. -/
def stepOk (s : AppState) : Event → AppState
  | .refreshE resp => refresh s (.ok resp)
  | .addE draft created => (handleAdd { s with newTitle := draft } (.ok created)).state
  | .toggleE id updated => (handleToggle s id (.ok updated)).state
  | .deleteE id => (handleDelete s id (.ok ())).state
  | .updateE id title updated => (handleUpdateTitle s id title (.ok updated)).state
  | .setFilterE f => setFilter s f

/-- Run a whole trace of successful operations. -/
def runOk (s : AppState) : List Event → AppState
  | [] => s
  | e :: es => runOk (stepOk s e) es

/-- Record one server-confirmed todo record under its id. -/
def confirmOne (c : Nat → Option Todo) (t : Todo) : Nat → Option Todo :=
  fun i => if i = t.id then some t else c i

/-- Update the last-server-confirmed map after one successful event: every
record the response carried becomes the latest confirmed record for its
id.  The guards mirror the handlers: an event whose handler returns before
issuing the network call confirms nothing. -/
def confirmStep (s : AppState) (c : Nat → Option Todo) : Event → (Nat → Option Todo)
  | .refreshE resp => (resp.items.getD []).foldl confirmOne c
  | .addE draft created => if jsTrim draft = "" then c else confirmOne c created
  | .toggleE _ updated => confirmOne c updated
  | .deleteE _ => c
  | .updateE id _ updated =>
      if (s.todos.find? (fun t => t.id = id)).isSome then confirmOne c updated else c
  | .setFilterE _ => c

/-- Run the confirmed-record map along a trace. -/
def runConfirm (s : AppState) (c : Nat → Option Todo) : List Event → (Nat → Option Todo)
  | [] => c
  | e :: es => runConfirm (stepOk s e) (confirmStep s c e) es

/-- The backend contract for one successful response (spec §6): a list
response carries pairwise-distinct ids, create assigns an id the client
does not already hold, and toggle/update return the record of the
requested id. -/
def serverOk (s : AppState) : Event → Prop
  | .refreshE resp => ((resp.items.getD []).map Todo.id).Nodup
  | .addE draft created => jsTrim draft ≠ "" → created.id ∉ s.todos.map Todo.id
  | .toggleE id updated => updated.id = id
  | .deleteE _ => True
  | .updateE id _ updated => updated.id = id
  | .setFilterE _ => True

/-- Every response along the trace satisfies the backend contract. -/
def ContractTrace (s : AppState) : List Event → Prop
  | [] => True
  | e :: es => serverOk s e ∧ ContractTrace (stepOk s e) es

/-- The client-side invariant: no duplicate ids, and every held record is
the last server-confirmed record for its id. -/
def ClientInv (s : AppState) (c : Nat → Option Todo) : Prop :=
  (s.todos.map Todo.id).Nodup ∧ ∀ t ∈ s.todos, c t.id = some t

instance (s : AppState) (e : Event) : Decidable (serverOk s e) := by
  cases e <;> simp only [serverOk] <;> infer_instance

instance instDecContractTrace : (s : AppState) → (es : List Event) → Decidable (ContractTrace s es)
  | _, [] => .isTrue trivial
  | s, e :: es =>
    have : Decidable (ContractTrace (stepOk s e) es) := instDecContractTrace _ es
    by simp only [ContractTrace]; infer_instance

instance (s : AppState) (c : Nat → Option Todo) : Decidable (ClientInv s c) := by
  simp only [ClientInv]; infer_instance

/-! ### Helper lemmas -/

/-- A map whose function fixes every member of the list is the identity. -/
theorem map_id_of_fixed {α : Type} {l : List α} {f : α → α}
    (h : ∀ a ∈ l, f a = a) : l.map f = l := by
  induction l with
  | nil => rfl
  | cons a as ih =>
    simp only [List.map_cons]
    rw [h a (List.mem_cons_self a as), ih (fun b hb => h b (List.mem_cons_of_mem a hb))]

/-- A present id makes the handler's `find?` succeed. -/
theorem find?_id_isSome {l : List Todo} {id : Nat} (h : ∃ t ∈ l, t.id = id) :
    (l.find? (fun t => t.id = id)).isSome := by
  rcases h with ⟨t, ht, hid⟩
  rw [List.find?_isSome]
  exact ⟨t, ht, by simp [hid]⟩

/-- A successful toggle composes its optimistic flip with the
reconciliation into a single by-id replacement. -/
theorem toggle_success_todos (s : AppState) (id : Nat) (upd : Todo) :
    (handleToggle s id (.ok upd)).state.todos
      = s.todos.map (fun a => if a.id = id then upd else a) := by
  show replaceById (toggleOptimistic s.todos id) id upd = _
  unfold replaceById toggleOptimistic
  rw [List.map_map]
  congr 1
  funext a
  by_cases h : a.id = id <;> simp [h]

/-- A successful update-title on a present id likewise collapses to a
single by-id replacement. -/
theorem update_success_todos (s : AppState) (id : Nat) (ttl : String) (upd ex : Todo)
    (hfind : s.todos.find? (fun t => t.id = id) = some ex) :
    (handleUpdateTitle s id ttl (.ok upd)).state.todos
      = s.todos.map (fun a => if a.id = id then upd else a) := by
  unfold handleUpdateTitle
  simp only [hfind]
  show replaceById (retitleOptimistic s.todos id ttl) id upd = _
  unfold replaceById retitleOptimistic
  rw [List.map_map]
  congr 1
  funext a
  by_cases h : a.id = id <;> simp [h]

/-! ### Claim theorems -/

/-- C1: Rollback law — when the network call of a toggle, delete, or
update-title operation fails with message `e`, the todos list after the
operation completes equals the pre-action snapshot and the error message
is set to `e` (update-title only reaches its network call when the id is
present). -/
theorem rollback_on_failure (s : AppState) (id : Nat) (ttl e : String) :
    ((handleToggle s id (.error e)).state.todos = s.todos
      ∧ (handleToggle s id (.error e)).state.error = e)
    ∧ ((handleDelete s id (.error e)).state.todos = s.todos
      ∧ (handleDelete s id (.error e)).state.error = e)
    ∧ ((∃ t ∈ s.todos, t.id = id) →
        (handleUpdateTitle s id ttl (.error e)).state.todos = s.todos
          ∧ (handleUpdateTitle s id ttl (.error e)).state.error = e) := by
  refine ⟨⟨rfl, rfl⟩, ⟨rfl, rfl⟩, fun h => ?_⟩
  obtain ⟨ex, hex⟩ := Option.isSome_iff_exists.mp (find?_id_isSome h)
  unfold handleUpdateTitle
  simp [hex]

/-- C1 witness: a concrete failing toggle and failing update roll back and
surface the message. -/
theorem rollback_on_failure_witness :
    (∃ t ∈ [Todo.mk 1 "a" false], t.id = 1)
    ∧ (handleUpdateTitle ⟨[⟨1, "a", false⟩], .all, "", false, false, ""⟩ 1 "b"
        (.error "down")).state.todos = [⟨1, "a", false⟩]
    ∧ (handleToggle ⟨[⟨1, "a", false⟩], .all, "", false, false, ""⟩ 1
        (.error "down")).state.error = "down" :=
  ⟨⟨⟨1, "a", false⟩, by decide, rfl⟩,
   ((rollback_on_failure ⟨[⟨1, "a", false⟩], .all, "", false, false, ""⟩ 1 "b" "down").2.2
      ⟨⟨1, "a", false⟩, by decide, rfl⟩).1,
   (rollback_on_failure ⟨[⟨1, "a", false⟩], .all, "", false, false, ""⟩ 1 "b" "down").1.2⟩

/-- C4: Add performs no optimistic insertion — with a non-blank draft,
success prepends the server-returned todo to the front with the rest
unchanged in order and clears the draft; failure leaves `todos` exactly
the pre-action list and surfaces the error. -/
theorem add_no_optimistic_insert (s : AppState) (created : Todo) (e : String)
    (h : jsTrim s.newTitle ≠ "") :
    (handleAdd s (.ok created)).state.todos = created :: s.todos
    ∧ (handleAdd s (.ok created)).state.newTitle = ""
    ∧ (handleAdd s (.error e)).state.todos = s.todos
    ∧ (handleAdd s (.error e)).state.error = e := by
  unfold handleAdd
  simp [h]

/-- C4 witness: a concrete add, succeeding and failing. -/
theorem add_no_optimistic_insert_witness :
    jsTrim " milk " ≠ ""
    ∧ (handleAdd ⟨[⟨1, "a", true⟩], .all, " milk ", false, false, ""⟩
        (.ok ⟨2, "milk", false⟩)).state.todos = [⟨2, "milk", false⟩, ⟨1, "a", true⟩]
    ∧ (handleAdd ⟨[⟨1, "a", true⟩], .all, " milk ", false, false, ""⟩
        (.error "down")).state.todos = [⟨1, "a", true⟩] :=
  ⟨by decide,
   (add_no_optimistic_insert ⟨[⟨1, "a", true⟩], .all, " milk ", false, false, ""⟩
      ⟨2, "milk", false⟩ "down" (by decide)).1,
   (add_no_optimistic_insert ⟨[⟨1, "a", true⟩], .all, " milk ", false, false, ""⟩
      ⟨2, "milk", false⟩ "down" (by decide)).2.2.1⟩

/-- C7: Refresh sets `loading` and clears the error at its start; on
success it replaces `todos` wholesale with the items field (`[]` when the
field is absent); on failure it leaves `todos` untouched and stores the
message; `loading` is cleared at completion in both cases. -/
theorem refresh_contract (s : AppState) (resp : ListResponse) (e : String) :
    (refreshStart s).loading = true
    ∧ (refreshStart s).error = ""
    ∧ (refreshStart s).todos = s.todos
    ∧ (refresh s (.ok resp)).todos = resp.items.getD []
    ∧ (refresh s (.ok resp)).loading = false
    ∧ (refresh s (.ok resp)).error = ""
    ∧ (refresh s (.error e)).todos = s.todos
    ∧ (refresh s (.error e)).error = e
    ∧ (refresh s (.error e)).loading = false :=
  ⟨rfl, rfl, rfl, rfl, rfl, rfl, rfl, rfl, rfl⟩

/-- C8: Empty-title guard — a blank or whitespace-only draft makes add
return with no network call and the state exactly unchanged, and makes the
inline editor's commit return without invoking the update callback. -/
theorem empty_title_guard (s : AppState) (o : Except String Todo) (t : Todo) (d : String)
    (hAdd : jsTrim s.newTitle = "") (hDraft : jsTrim d = "") :
    handleAdd s o = ⟨s, none, false⟩ ∧ commitEdit t d = none := by
  constructor
  · unfold handleAdd
    simp [hAdd]
  · unfold commitEdit
    simp [hDraft]

/-- C8 witness: a whitespace-only draft in a concrete state. -/
theorem empty_title_guard_witness :
    jsTrim "   " = ""
    ∧ handleAdd ⟨[⟨1, "a", false⟩], .active, "   ", true, true, "x"⟩ (.ok ⟨9, "z", true⟩)
        = ⟨⟨[⟨1, "a", false⟩], .active, "   ", true, true, "x"⟩, none, false⟩
    ∧ commitEdit ⟨1, "a", false⟩ " " = none :=
  ⟨by decide,
   (empty_title_guard ⟨[⟨1, "a", false⟩], .active, "   ", true, true, "x"⟩
      (.ok ⟨9, "z", true⟩) ⟨1, "a", false⟩ " " (by decide) (by decide)).1,
   (empty_title_guard ⟨[⟨1, "a", false⟩], .active, "   ", true, true, "x"⟩
      (.ok ⟨9, "z", true⟩) ⟨1, "a", false⟩ " " (by decide) (by decide)).2⟩

/-- C9: Changing the filter selection never changes `todos`; the derived
filtered list is `todos` itself for `all`, exactly the todos with
`completed = false` for `active`, exactly those with `completed = true`
for `completed`; the counts are taken over the full unfiltered list. -/
theorem filter_is_pure_view (s : AppState) (f : TodoFilter) :
    (setFilter s f).todos = s.todos
    ∧ filteredTodos { s with filter := TodoFilter.all } = s.todos
    ∧ filteredTodos { s with filter := TodoFilter.active }
        = s.todos.filter (fun t => t.completed = false)
    ∧ filteredTodos { s with filter := TodoFilter.completed }
        = s.todos.filter (fun t => t.completed = true)
    ∧ counts (setFilter s f) = counts s
    ∧ (counts s).total = s.todos.length
    ∧ (counts s).completed = (s.todos.filter (fun t => t.completed = true)).length
    ∧ (counts s).active = (counts s).total - (counts s).completed := by
  refine ⟨rfl, rfl, ?_, ?_, rfl, rfl, ?_, rfl⟩
  · show s.todos.filter (fun t => !t.completed) = _
    exact List.filter_congr (fun a _ => by cases h : a.completed <;> simp [h])
  · show s.todos.filter (fun t => t.completed) = _
    exact List.filter_congr (fun a _ => by cases h : a.completed <;> simp [h])
  · show (s.todos.filter (fun t => t.completed)).length = _
    exact congrArg List.length
      (List.filter_congr (fun a _ => by cases h : a.completed <;> simp [h]))

/-- C10: toggle and delete perform no local existence check — for an id
absent from `todos` they still issue the network request, their optimistic
local mutations are the identity on `todos`, and on success `todos` is
exactly unchanged. -/
theorem toggle_delete_absent_id (s : AppState) (id : Nat) (upd : Todo) (e : String)
    (h : ∀ t ∈ s.todos, t.id ≠ id) :
    (handleToggle s id (.ok upd)).request = some (.toggle id)
    ∧ (handleToggle s id (.error e)).request = some (.toggle id)
    ∧ (handleDelete s id (.ok ())).request = some (.delete id)
    ∧ (handleDelete s id (.error e)).request = some (.delete id)
    ∧ toggleOptimistic s.todos id = s.todos
    ∧ removeById s.todos id = s.todos
    ∧ (handleToggle s id (.ok upd)).state.todos = s.todos
    ∧ (handleDelete s id (.ok ())).state.todos = s.todos := by
  have hTog : toggleOptimistic s.todos id = s.todos :=
    map_id_of_fixed (fun t ht => by simp [h t ht])
  have hRem : removeById s.todos id = s.todos :=
    List.filter_eq_self.mpr (fun t ht => by simp [h t ht])
  refine ⟨rfl, rfl, rfl, rfl, hTog, hRem, ?_, ?_⟩
  · rw [toggle_success_todos]
    exact map_id_of_fixed (fun t ht => by simp [h t ht])
  · show removeById s.todos id = s.todos
    exact hRem

/-- C10 witness: id 2 absent from a concrete singleton list. -/
theorem toggle_delete_absent_id_witness :
    (∀ t ∈ [Todo.mk 1 "a" false], t.id ≠ 2)
    ∧ (handleToggle ⟨[⟨1, "a", false⟩], .all, "", false, false, ""⟩ 2
        (.ok ⟨2, "b", true⟩)).state.todos = [⟨1, "a", false⟩]
    ∧ (handleDelete ⟨[⟨1, "a", false⟩], .all, "", false, false, ""⟩ 2
        (.ok ())).state.todos = [⟨1, "a", false⟩] :=
  ⟨by decide,
   (toggle_delete_absent_id ⟨[⟨1, "a", false⟩], .all, "", false, false, ""⟩ 2
      ⟨2, "b", true⟩ "down" (by decide)).2.2.2.2.2.2.1,
   (toggle_delete_absent_id ⟨[⟨1, "a", false⟩], .all, "", false, false, ""⟩ 2
      ⟨2, "b", true⟩ "down" (by decide)).2.2.2.2.2.2.2⟩

/-- C5: Toggle round-trip — toggling a present todo's id twice, the
backend each time returning that record with `completed` inverted, leaves
every record held under that id with its original `completed` value, and
the id is still present. -/
theorem toggle_roundtrip (s : AppState) (t : Todo) (h : t ∈ s.todos) :
    (∃ u ∈ ((handleToggle (handleToggle s t.id
          (.ok { t with completed := !t.completed })).state t.id
          (.ok { t with completed := !(!t.completed) })).state).todos, u.id = t.id)
    ∧ ∀ u ∈ ((handleToggle (handleToggle s t.id
          (.ok { t with completed := !t.completed })).state t.id
          (.ok { t with completed := !(!t.completed) })).state).todos,
        u.id = t.id → u.completed = t.completed := by
  rw [toggle_success_todos, toggle_success_todos, List.map_map]
  constructor
  · refine ⟨{ t with completed := !(!t.completed) }, ?_, rfl⟩
    rw [List.mem_map]
    exact ⟨t, h, by simp [Function.comp]⟩
  · intro u hu hid
    obtain ⟨a, ha, rfl⟩ := List.mem_map.mp hu
    by_cases hcase : a.id = t.id
    · simp [Function.comp, hcase]
    · simp [Function.comp, hcase] at hid

/-- C5 witness: a concrete todo toggled twice ends with its original
`completed` value. -/
theorem toggle_roundtrip_witness :
    (Todo.mk 1 "a" false) ∈ [Todo.mk 1 "a" false]
    ∧ ∀ u ∈ ((handleToggle (handleToggle ⟨[⟨1, "a", false⟩], .all, "", false, false, ""⟩ 1
          (.ok ⟨1, "a", !false⟩)).state 1
          (.ok ⟨1, "a", !(!false)⟩)).state).todos,
        u.id = 1 → u.completed = false :=
  ⟨by decide,
   (toggle_roundtrip ⟨[⟨1, "a", false⟩], .all, "", false, false, ""⟩ ⟨1, "a", false⟩
      (by decide)).2⟩

/-- C3 counterexample: with an absent id, `handleUpdateTitle` still clears
the error message (the `setError("")` precedes the existence check), so
"no state change" fails — the state at this input does change. -/
theorem update_absent_clears_error_cx :
    (handleUpdateTitle ⟨[], .all, "", false, false, "boom"⟩ 1 "x"
        (.ok ⟨1, "x", false⟩)).request = none
    ∧ (handleUpdateTitle ⟨[], .all, "", false, false, "boom"⟩ 1 "x"
        (.ok ⟨1, "x", false⟩)).state
        ≠ (⟨[], .all, "", false, false, "boom"⟩ : AppState) :=
  ⟨rfl, by decide⟩

/-- C3 (amended): update-title with an absent id issues no network call,
does not reject, and leaves the state unchanged except that the error
message is cleared.  With a present id: the optimistic phase rewrites only
that todo's title, preserving every id and every `completed` flag and
fixing all other records; the request carries the existing record's
`completed` value and the new title; success replaces the record held
under that id with the server's returned record; failure rolls `todos`
back to the snapshot, stores the message, and rejects towards the
caller. -/
theorem update_title_contract (s : AppState) (id : Nat) (ttl e : String) (upd : Todo)
    (o : Except String Todo) :
    (s.todos.find? (fun t => t.id = id) = none →
        handleUpdateTitle s id ttl o = ⟨{ s with error := "" }, none, false⟩)
    ∧ List.Forall₂
        (fun a b => b.id = a.id ∧ b.completed = a.completed
          ∧ (a.id = id → b.title = ttl) ∧ (a.id ≠ id → b = a))
        s.todos (retitleOptimistic s.todos id ttl)
    ∧ (∀ ex, s.todos.find? (fun t => t.id = id) = some ex →
        (handleUpdateTitle s id ttl o).request = some (.update id ttl ex.completed))
    ∧ (∀ ex, s.todos.find? (fun t => t.id = id) = some ex →
        (handleUpdateTitle s id ttl (.ok upd)).state.todos
          = s.todos.map (fun a => if a.id = id then upd else a))
    ∧ (∀ ex, s.todos.find? (fun t => t.id = id) = some ex →
        (handleUpdateTitle s id ttl (.error e)).state.todos = s.todos
        ∧ (handleUpdateTitle s id ttl (.error e)).state.error = e
        ∧ (handleUpdateTitle s id ttl (.error e)).rejected = true) := by
  refine ⟨?_, ?_, ?_, ?_, ?_⟩
  · intro hnone
    unfold handleUpdateTitle
    simp [hnone]
  · unfold retitleOptimistic
    rw [List.forall₂_map_right_iff]
    rw [List.forall₂_same]
    intro a _
    by_cases hc : a.id = id <;> simp [hc]
  · intro ex hex
    cases o with
    | ok upd2 =>
      unfold handleUpdateTitle
      simp [hex]
    | error e2 =>
      unfold handleUpdateTitle
      simp [hex]
  · intro ex hex
    exact update_success_todos s id ttl upd ex hex
  · intro ex hex
    unfold handleUpdateTitle
    simp [hex]

/-- C3 witness: an absent id at a concrete state, and a present id whose
failing update rejects. -/
theorem update_title_contract_witness :
    ([Todo.mk 1 "a" false].find? (fun t => t.id = 2) = none)
    ∧ handleUpdateTitle ⟨[⟨1, "a", false⟩], .all, "", false, false, ""⟩ 2 "x"
        (.ok ⟨2, "x", false⟩)
        = ⟨⟨[⟨1, "a", false⟩], .all, "", false, false, ""⟩, none, false⟩
    ∧ ([Todo.mk 1 "a" false].find? (fun t => t.id = 1) = some ⟨1, "a", false⟩)
    ∧ (handleUpdateTitle ⟨[⟨1, "a", false⟩], .all, "", false, false, ""⟩ 1 "x"
        (.error "down")).rejected = true :=
  ⟨by decide,
   (update_title_contract ⟨[⟨1, "a", false⟩], .all, "", false, false, ""⟩ 2 "x" "down"
      ⟨2, "x", false⟩ (.ok ⟨2, "x", false⟩)).1 (by decide),
   by decide,
   ((update_title_contract ⟨[⟨1, "a", false⟩], .all, "", false, false, ""⟩ 1 "x" "down"
      ⟨1, "x", false⟩ (.error "down")).2.2.2.2 ⟨1, "a", false⟩ (by decide)).2.2⟩

/-- C6 counterexample: a non-success response whose JSON body is the bare
string `"oops"` — the code passes it through `String(...)` unquoted, while
the claimed priority order serializes it, quotes included; the two
disagree at this response. -/
theorem error_message_cx :
    request ⟨false, 400, "Bad Request", some (.str "oops")⟩ = .error "oops"
    ∧ specClaimMessage ⟨false, 400, "Bad Request", some (.str "oops")⟩ = "\"oops\""
    ∧ parseErrorBody ⟨false, 400, "Bad Request", some (.str "oops")⟩
        ≠ specClaimMessage ⟨false, 400, "Bad Request", some (.str "oops")⟩ :=
  ⟨rfl, by decide, by decide⟩

/-- C6 (amended): for every non-success response the thrown message
follows the priority order — a string `detail` field of the JSON body;
else the serialized JSON body, except that a body that is itself a bare
JSON string passes through as-is rather than being re-serialized; else the
transport's status text for a non-JSON body; else the fixed string
`"Request failed"` when the status text is empty. -/
theorem error_message_priority (res : HttpResponse) (hok : res.ok = false) :
    (∀ data s, res.body = some data → detailField data = some (.str s) →
        request res = .error s)
    ∧ (∀ s, res.body = some (.str s) → request res = .error s)
    ∧ (∀ data, res.body = some data → (∀ s, detailField data ≠ some (.str s)) →
        (∀ s, data ≠ .str s) → request res = .error (stringify data))
    ∧ (res.body = none → res.statusText ≠ "" → request res = .error res.statusText)
    ∧ (res.body = none → res.statusText = "" → request res = .error "Request failed") := by
  have hreq : request res = .error (parseErrorBody res) := by
    unfold request
    simp [hok]
  refine ⟨?_, ?_, ?_, ?_, ?_⟩
  · intro data s hb hd
    rw [hreq]
    unfold parseErrorBody
    rw [hb]
    cases data with
    | obj fs => simp [isJsObject, hd]
    | null => simp [detailField] at hd
    | bool b => simp [detailField] at hd
    | num n => simp [detailField] at hd
    | str s2 => simp [detailField] at hd
    | arr xs => simp [detailField] at hd
  · intro s hb
    rw [hreq]
    unfold parseErrorBody
    rw [hb]
    simp [isJsObject, jsToString]
  · intro data hb hnd hns
    rw [hreq]
    unfold parseErrorBody
    rw [hb]
    cases data with
    | null => simp [isJsObject, jsToString, stringify]
    | bool b => cases b <;> simp [isJsObject, jsToString, stringify]
    | num n => simp [isJsObject, jsToString, stringify]
    | str s2 => exact absurd rfl (hns s2)
    | arr xs => simp [isJsObject, detailField]
    | obj fs =>
      cases hv : detailField (.obj fs) with
      | none => simp [isJsObject, hv]
      | some v =>
        match v, hv with
        | .str s2, hv => exact absurd hv (hnd s2)
        | .null, hv => simp [isJsObject, hv]
        | .bool b, hv => simp [isJsObject, hv]
        | .num n, hv => simp [isJsObject, hv]
        | .arr a2, hv => simp [isJsObject, hv]
        | .obj o2, hv => simp [isJsObject, hv]
  · intro hb hne
    rw [hreq]
    unfold parseErrorBody
    rw [hb]
    simp [hne]
  · intro hb he
    rw [hreq]
    unfold parseErrorBody
    rw [hb]
    simp [he]

/-- C6 witness: a 404 with a structured `detail` body yields its detail
string; an empty-status-text non-JSON failure yields `"Request failed"`. -/
theorem error_message_priority_witness :
    (HttpResponse.mk false 404 "Not Found" (some (.obj [("detail", .str "nope")]))).ok = false
    ∧ request ⟨false, 404, "Not Found", some (.obj [("detail", .str "nope")])⟩ = .error "nope"
    ∧ request ⟨false, 500, "", none⟩ = .error "Request failed" :=
  ⟨rfl,
   (error_message_priority ⟨false, 404, "Not Found", some (.obj [("detail", .str "nope")])⟩
      rfl).1 (.obj [("detail", .str "nope")]) "nope" rfl rfl,
   (error_message_priority ⟨false, 500, "", none⟩ rfl).2.2.2.2 rfl rfl⟩

/-- Ids not touched by a fold of confirmations read from the base map. -/
theorem foldl_confirmOne_not_mem (items : List Todo) (c : Nat → Option Todo) (i : Nat)
    (h : i ∉ items.map Todo.id) : (items.foldl confirmOne c) i = c i := by
  induction items generalizing c with
  | nil => rfl
  | cons a as ih =>
    simp only [List.map_cons, List.mem_cons] at h
    push_neg at h
    simp only [List.foldl_cons]
    rw [ih _ h.2]
    unfold confirmOne
    simp [h.1]

/-- After folding a batch of confirmations with pairwise-distinct ids,
each item of the batch is the confirmed record for its id. -/
theorem foldl_confirmOne_mem (items : List Todo) (c : Nat → Option Todo)
    (hnd : (items.map Todo.id).Nodup) :
    ∀ t ∈ items, (items.foldl confirmOne c) t.id = some t := by
  induction items generalizing c with
  | nil => intro t ht; cases ht
  | cons a as ih =>
    intro t ht
    simp only [List.map_cons, List.nodup_cons] at hnd
    rcases List.mem_cons.mp ht with rfl | hmem
    · simp only [List.foldl_cons]
      rw [foldl_confirmOne_not_mem as (confirmOne c t) t.id hnd.1]
      unfold confirmOne
      simp
    · simp only [List.foldl_cons]
      exact ih (confirmOne c a) hnd.2 t hmem

/-- Replacing by id preserves the id list, and together with confirming
the replacement keeps every held record server-confirmed. -/
theorem replace_preserves (l : List Todo) (c : Nat → Option Todo) (id : Nat) (upd : Todo)
    (hid : upd.id = id) (hnd : (l.map Todo.id).Nodup)
    (hconf : ∀ t ∈ l, c t.id = some t) :
    ((l.map (fun a => if a.id = id then upd else a)).map Todo.id).Nodup
    ∧ ∀ t ∈ l.map (fun a => if a.id = id then upd else a),
        confirmOne c upd t.id = some t := by
  constructor
  · rw [List.map_map]
    have hcomp : (Todo.id ∘ fun a => if a.id = id then upd else a) = Todo.id := by
      funext a
      by_cases h : a.id = id <;> simp [Function.comp, h, hid]
    rw [hcomp]
    exact hnd
  · intro t ht
    obtain ⟨a, ha, rfl⟩ := List.mem_map.mp ht
    by_cases h : a.id = id
    · simp only [if_pos h]
      unfold confirmOne
      simp
    · simp only [if_neg h]
      unfold confirmOne
      rw [if_neg (fun hc => h (by rw [hc, hid]))]
      exact hconf a ha

/-- One successful, contract-satisfying step preserves the client-side
invariant. -/
theorem stepOk_preserves (s : AppState) (c : Nat → Option Todo) (e : Event)
    (hInv : ClientInv s c) (hOk : serverOk s e) :
    ClientInv (stepOk s e) (confirmStep s c e) := by
  obtain ⟨hnd, hconf⟩ := hInv
  cases e with
  | refreshE resp =>
    refine ⟨hOk, ?_⟩
    intro t ht
    exact foldl_confirmOne_mem _ c hOk t ht
  | addE draft created =>
    simp only [stepOk, confirmStep]
    by_cases hdr : jsTrim draft = ""
    · have hstate : (handleAdd { s with newTitle := draft } (.ok created)).state
          = { s with newTitle := draft } := by
        unfold handleAdd
        simp [hdr]
      rw [hstate, if_pos hdr]
      exact ⟨hnd, hconf⟩
    · have htodos : (handleAdd { s with newTitle := draft } (.ok created)).state.todos
          = created :: s.todos := by
        unfold handleAdd
        simp [hdr]
      have hfresh : created.id ∉ s.todos.map Todo.id := hOk hdr
      rw [if_neg hdr]
      refine ⟨?_, ?_⟩
      · rw [htodos]
        simp only [List.map_cons]
        exact List.nodup_cons.mpr ⟨hfresh, hnd⟩
      · intro t ht
        rw [htodos] at ht
        rcases List.mem_cons.mp ht with rfl | hmem
        · unfold confirmOne
          simp
        · unfold confirmOne
          rw [if_neg (fun hc : t.id = created.id =>
            hfresh (hc ▸ List.mem_map_of_mem Todo.id hmem))]
          exact hconf t hmem
  | toggleE id upd =>
    simp only [stepOk, confirmStep]
    obtain ⟨h1, h2⟩ := replace_preserves s.todos c id upd hOk hnd hconf
    refine ⟨?_, ?_⟩
    · rw [toggle_success_todos]
      exact h1
    · intro t ht
      rw [toggle_success_todos] at ht
      exact h2 t ht
  | deleteE id =>
    refine ⟨?_, ?_⟩
    · show ((removeById s.todos id).map Todo.id).Nodup
      exact hnd.sublist ((List.filter_sublist s.todos).map Todo.id)
    · intro t ht
      have hmem : t ∈ s.todos := List.mem_of_mem_filter ht
      exact hconf t hmem
  | updateE id ttl upd =>
    simp only [stepOk, confirmStep]
    cases hf : s.todos.find? (fun t => t.id = id) with
    | none =>
      have hstate : (handleUpdateTitle s id ttl (.ok upd)).state = { s with error := "" } := by
        unfold handleUpdateTitle
        simp [hf]
      rw [hstate]
      exact ⟨hnd, hconf⟩
    | some ex =>
      have h1 := update_success_todos s id ttl upd ex hf
      obtain ⟨hn2, hc2⟩ := replace_preserves s.todos c id upd hOk hnd hconf
      refine ⟨?_, ?_⟩
      · rw [h1]
        exact hn2
      · intro t ht
        rw [h1] at ht
        exact hc2 t ht
  | setFilterE f =>
    exact ⟨hnd, hconf⟩

/-- The invariant holds after every contract-satisfying successful
trace. -/
theorem runOk_preserves (es : List Event) : ∀ (s : AppState) (c : Nat → Option Todo),
    ClientInv s c → ContractTrace s es → ClientInv (runOk s es) (runConfirm s c es) := by
  induction es with
  | nil =>
    intro s c h _
    exact h
  | cons e es ih =>
    intro s c h hct
    exact ih _ _ (stepOk_preserves s c e h hct.1) hct.2

/-- C2: starting from the initial state, every sequence of operations
whose network calls all succeed with contract-satisfying responses leaves
`todos` with pairwise-distinct ids, and each held record equal to the last
server-confirmed record for its id. -/
theorem no_duplicate_ids (es : List Event) (hct : ContractTrace initState es) :
    (((runOk initState es).todos.map Todo.id).Nodup)
    ∧ ∀ t ∈ (runOk initState es).todos,
        runConfirm initState (fun _ => none) es t.id = some t :=
  runOk_preserves es initState (fun _ => none)
    ⟨List.nodup_nil, fun t ht => absurd ht (List.not_mem_nil t)⟩ hct

/-- C2 witness: a concrete contract-satisfying trace (refresh, add,
toggle, update, delete) keeps ids distinct and records confirmed. -/
theorem no_duplicate_ids_witness :
    ContractTrace initState
      [.refreshE ⟨some [⟨1, "a", false⟩], some 1⟩, .addE "b" ⟨2, "b", false⟩,
       .toggleE 1 ⟨1, "a", true⟩, .updateE 2 "c" ⟨2, "c", false⟩, .deleteE 1]
    ∧ ((((runOk initState
        [.refreshE ⟨some [⟨1, "a", false⟩], some 1⟩, .addE "b" ⟨2, "b", false⟩,
         .toggleE 1 ⟨1, "a", true⟩, .updateE 2 "c" ⟨2, "c", false⟩,
         .deleteE 1]).todos.map Todo.id).Nodup)
      ∧ ∀ t ∈ (runOk initState
          [.refreshE ⟨some [⟨1, "a", false⟩], some 1⟩, .addE "b" ⟨2, "b", false⟩,
           .toggleE 1 ⟨1, "a", true⟩, .updateE 2 "c" ⟨2, "c", false⟩,
           .deleteE 1]).todos,
          runConfirm initState (fun _ => none)
            [.refreshE ⟨some [⟨1, "a", false⟩], some 1⟩, .addE "b" ⟨2, "b", false⟩,
             .toggleE 1 ⟨1, "a", true⟩, .updateE 2 "c" ⟨2, "c", false⟩,
             .deleteE 1] t.id = some t) :=
  ⟨by decide,
   no_duplicate_ids
     [.refreshE ⟨some [⟨1, "a", false⟩], some 1⟩, .addE "b" ⟨2, "b", false⟩,
      .toggleE 1 ⟨1, "a", true⟩, .updateE 2 "c" ⟨2, "c", false⟩, .deleteE 1]
     (by decide)⟩
